import Mathlib

/-!
Verification development for `make_files_tree.py`, the fetch/retry/sanitize
crawler that mirrors tracked web pages into a local file tree.

The Python source is shallowly embedded as executable Lean definitions over
`List Char` (text), with the network modelled by explicit scripts of
responses: one scripted event is consumed per HTTP request the code issues.
Each `re.sub` call is embedded as a left-to-right scan (`subF`) driven by a
matcher for that specific pattern, reproducing Python's leftmost,
non-overlapping global-substitution semantics (greedy and lazy pieces of the
concrete patterns are resolved explicitly in each matcher; for all seven
patterns the greedy and lazy choices are forced, as argued in the comments).
-/

/-! ## Constants (module top of make_files_tree.py) -/

/-- `DYNAMIC_PART_MOCK = 'telegram-crawler'`. -/
def DYNAMIC_PART_MOCK : List Char := ("telegram-crawler".data)

/-- `ILLEGAL_PATH_CHARS = punctuation.replace('.', '') + whitespace`.
The exact character sequence of Python's
`string.punctuation` with `'.'` removed, followed by `string.whitespace`
(space, tab, newline, carriage return, vertical tab, form feed), given here
by character codes so the sequence (which matters for the substring test
below) is explicit. -/
def ILLEGAL_PATH_CHARS : List Char :=
  ([33, 34, 35, 36, 37, 38, 39, 40, 41, 42, 43, 44, 45, 47, 58, 59, 60, 61,
    62, 63, 64, 91, 92, 93, 94, 95, 96, 123, 124, 125, 126,
    32, 9, 10, 13, 11, 12].map Char.ofNat)

/-- Python's `p in s` for strings: `p` occurs as a contiguous substring of
`s` (the empty string is a substring of every string). -/
def isSubstrOf (p s : List Char) : Bool :=
  p.isPrefixOf s ||
  match s with
  | [] => false
  | _ :: t => isSubstrOf p t

/-! ## Path derivation (crawl, lines 190-194) -/

/-- Python's `url.split('/')`: split at every `'/'`, keeping empty pieces;
the empty string splits to `['']`. -/
def splitSlash : List Char → List (List Char)
  | [] => [[]]
  | c :: cs =>
    if c = '/' then [] :: splitSlash cs
    else
      match splitSlash cs with
      | [] => [[c]]
      | h :: t => (c :: h) :: t

/-- `url_parts = [p for p in url.split('/') if p not in ILLEGAL_PATH_CHARS]`.
Note the filter uses Python's substring containment, not a character-set
test. -/
def retainedParts (url : List Char) : List (List Char) :=
  (splitSlash url).filter (fun p => !(isSubstrOf p ILLEGAL_PATH_CHARS))

/-- The joined parts plus the conditional extension:
`ext = '.html' if '.' not in url_parts[-1] or len(url_parts) == 1 else ''`.
Here `ps.getLastD p` is the last element of `p :: ps` (i.e. `url_parts[-1]`)
and `ps = []` is `len(url_parts) == 1`. -/
def joinedWithExt (p : List Char) (ps : List (List Char)) : List Char :=
  List.intercalate ("/".data) (p :: ps) ++
    (if ('.' ∉ ps.getLastD p) ∨ ps = [] then (".html".data) else [])

/-- `filename = OUTPUT_FOLDER + '/'.join(url_parts) + ext`, as a function of
the output root.  `url_parts[-1]` raises `IndexError` when every segment of
the url was dropped, modelled by `none`. -/
def derivePath (root url : List Char) : Option (List Char) :=
  match retainedParts url with
  | [] => none
  | p :: ps => some (root ++ joinedWithExt p ps)

/-! ## Sanitizer: the eight `re.sub` calls (crawl, lines 202-209)

A matcher `tryM s` decides whether the pattern matches at the *start* of
`s`; it returns the matched length together with the replacement text.  For
every pattern below a successful match has length at least 1. -/

/-- `[a-z0-9]`. -/
def isLowerAlnum (c : Char) : Bool :=
  (97 ≤ c.toNat && c.toNat ≤ 122) || (48 ≤ c.toNat && c.toNat ≤ 57)

/-- `\d`. -/
def isDigitCh (c : Char) : Bool := 48 ≤ c.toNat && c.toNat ≤ 57

/-- `[a-z_]`. -/
def isLowerUnd (c : Char) : Bool :=
  (97 ≤ c.toNat && c.toNat ≤ 122) || c == '_'

/-- Parse `[a-z0-9]+_[a-z0-9]+_[a-z0-9]+` at the front of `s`, returning the
matched length.  Each `[a-z0-9]+` is forced to be the maximal run: `'_'` is
not in the class, so a shorter (backtracked) run would be followed by a
class character, never by `'_'`. -/
def groups3 (s : List Char) : Option Nat :=
  let g1 := s.takeWhile isLowerAlnum
  let r1 := s.dropWhile isLowerAlnum
  if g1.isEmpty then none else
  match r1 with
  | '_' :: r2 =>
    let g2 := r2.takeWhile isLowerAlnum
    let r3 := r2.dropWhile isLowerAlnum
    if g2.isEmpty then none else
    match r3 with
    | '_' :: r4 =>
      let g3 := r4.takeWhile isLowerAlnum
      if g3.isEmpty then none
      else some (g1.length + 1 + g2.length + 1 + g3.length)
    | _ => none
  | _ => none

/-- `PAGE_GENERATION_TIME_REGEX = r'<!-- page generated in .+ -->'`,
replaced by `''`.  `.` excludes newline; greedy `.+` followed by the literal
`' -->'` matches up to the *last* occurrence of `' -->'` inside the maximal
newline-free run (the literal's own characters are newline-free, so any
occurrence that starts inside the run lies inside it). -/
def tryPageGenerationTime (s : List Char) : Option (Nat × List Char) :=
  let pre := ("<!-- page generated in ".data)
  if pre.isPrefixOf s then
    let run := (s.drop pre.length).takeWhile (fun c => !(c == '\n'))
    match ((List.range (run.length + 1)).filter
        (fun p => decide (1 ≤ p) && (" -->".data).isPrefixOf (run.drop p))).getLast? with
    | some p => some (pre.length + p + 4, [])
    | none => none
  else none

/-- `PAGE_API_HASH_REGEX = r'\?hash=[a-z0-9]+'`, replaced by
`'?hash=telegram-crawler'`.  Greedy `[a-z0-9]+` is the maximal run. -/
def tryPageApiHash (s : List Char) : Option (Nat × List Char) :=
  let pre := ("?hash=".data)
  if pre.isPrefixOf s then
    let run := (s.drop pre.length).takeWhile isLowerAlnum
    if run.isEmpty then none
    else some (pre.length + run.length, ("?hash=".data) ++ DYNAMIC_PART_MOCK)
  else none

/-- `PASSPORT_SSID_REGEX = r'passport_ssid=[a-z0-9]+_[a-z0-9]+_[a-z0-9]+'`,
replaced by `'passport_ssid=telegram-crawler'`. -/
def tryPassportSsid (s : List Char) : Option (Nat × List Char) :=
  let pre := ("passport_ssid=".data)
  if pre.isPrefixOf s then
    match groups3 (s.drop pre.length) with
    | some n => some (pre.length + n, ("passport_ssid=".data) ++ DYNAMIC_PART_MOCK)
    | none => none
  else none

/-- `NONCE_REGEX = r'"nonce":"[a-z0-9]+_[a-z0-9]+_[a-z0-9]+'`, replaced by
`'"nonce":"telegram-crawler'`. -/
def tryNonce (s : List Char) : Option (Nat × List Char) :=
  let pre := ("\"nonce\":\"".data)
  if pre.isPrefixOf s then
    match groups3 (s.drop pre.length) with
    | some n => some (pre.length + n, ("\"nonce\":\"".data) ++ DYNAMIC_PART_MOCK)
    | none => none
  else none

/-- `PROXY_CONFIG_SUB_NET_REGEX = r'\d+\.\d+:8888;'`, replaced by
`'X.X:8888;'`.  Both `\d+` are forced maximal (followed by non-digit
literals `'.'` and `':'`). -/
def tryProxyConfigSubNet (s : List Char) : Option (Nat × List Char) :=
  let d1 := s.takeWhile isDigitCh
  let r1 := s.dropWhile isDigitCh
  if d1.isEmpty then none else
  match r1 with
  | '.' :: r2 =>
    let d2 := r2.takeWhile isDigitCh
    let r3 := r2.dropWhile isDigitCh
    if d2.isEmpty then none else
    if (":8888;".data).isPrefixOf r3 then
      some (d1.length + 1 + d2.length + 6, ("X.X:8888;".data))
    else none
  | _ => none

/-- `TRANSLATE_SUGGESTION_REGEX = r'<div class="tr-value-suggestion">(.?)+</div>'`,
replaced by `''`.  `(.?)+` matches any (possibly empty) newline-free
sequence, greedily, so the match extends to the last `'</div>'` inside the
maximal newline-free run after the opening tag. -/
def tryTranslateSuggestion (s : List Char) : Option (Nat × List Char) :=
  let pre := ("<div class=\"tr-value-suggestion\">".data)
  if pre.isPrefixOf s then
    let run := (s.drop pre.length).takeWhile (fun c => !(c == '\n'))
    match ((List.range (run.length + 1)).filter
        (fun p => ("</div>".data).isPrefixOf (run.drop p))).getLast? with
    | some p => some (pre.length + p + 6, [])
    | none => none
  else none

/-- `SPARKLE_SIG_REGEX = r';sig=(.*?);'`, replaced by
`';sig=telegram-crawler;'`.  Lazy `(.*?)` stops at the first `';'`, and `.`
excludes newline, so the match fails if a newline precedes the first
`';'`. -/
def trySparkleSig (s : List Char) : Option (Nat × List Char) :=
  let pre := (";sig=".data)
  if pre.isPrefixOf s then
    let rest := s.drop pre.length
    let mid := rest.takeWhile (fun c => !(c == ';') && !(c == '\n'))
    match rest.drop mid.length with
    | ';' :: _ =>
        some (pre.length + mid.length + 1, (";sig=".data) ++ DYNAMIC_PART_MOCK ++ (";".data))
    | _ => none
  else none

/-- `SPARKLE_SE_REGEX = r';se=(.*?);'`, replaced by `';se=telegram-crawler;'`. -/
def trySparkleSe (s : List Char) : Option (Nat × List Char) :=
  let pre := (";se=".data)
  if pre.isPrefixOf s then
    let rest := s.drop pre.length
    let mid := rest.takeWhile (fun c => !(c == ';') && !(c == '\n'))
    match rest.drop mid.length with
    | ';' :: _ =>
        some (pre.length + mid.length + 1, (";se=".data) ++ DYNAMIC_PART_MOCK ++ (";".data))
    | _ => none
  else none

/-- Fueled scan implementing `re.sub`: at each position try the matcher; on
a match emit the replacement and resume after the matched text (Python
continues scanning the input after the match and never rescans emitted
replacements); otherwise copy one character.  Every matcher above consumes
at least one character, so fuel `s.length` is exact. -/
def subF (tryM : List Char → Option (Nat × List Char)) : Nat → List Char → List Char
  | 0, s => s
  | _ + 1, [] => []
  | fuel + 1, c :: cs =>
    match tryM (c :: cs) with
    | some (n, repl) => repl ++ subF tryM fuel ((c :: cs).drop n)
    | none => c :: subF tryM fuel cs

/-- `re.sub(pattern, repl, s)` for the matcher `tryM`. -/
def reSub (tryM : List Char → Option (Nat × List Char)) (s : List Char) : List Char :=
  subF tryM s.length s

/-- The pattern matches somewhere in `s` (at some position). -/
def hasMatchF (tryM : List Char → Option (Nat × List Char)) : List Char → Bool
  | [] => false
  | c :: cs => (tryM (c :: cs)).isSome || hasMatchF tryM cs

/-- The eight `re.sub` calls of `crawl`, in source order (lines 202-209). -/
def sanitize (content : List Char) : List Char :=
  reSub trySparkleSe
    (reSub trySparkleSig
      (reSub tryTranslateSuggestion
        (reSub tryProxyConfigSubNet
          (reSub tryNonce
            (reSub tryPassportSsid
              (reSub tryPageApiHash
                (reSub tryPageGenerationTime content)))))))

/-- No occurrence of any of the seven volatile patterns (eight matchers) in
`x`. -/
def noMatchAll (x : List Char) : Bool :=
  !(hasMatchF tryPageGenerationTime x) && !(hasMatchF tryPageApiHash x) &&
  !(hasMatchF tryPassportSsid x) && !(hasMatchF tryNonce x) &&
  !(hasMatchF tryProxyConfigSubNet x) && !(hasMatchF tryTranslateSuggestion x) &&
  !(hasMatchF trySparkleSig x) && !(hasMatchF trySparkleSe x)

/-! ## The pagination-url test (`TRANSLATIONS_EN_CATEGORY_URL_REGEX`, line 24)

`re.search(r'/en/[a-z_]+/[a-z_]+/$', url)`.  Anchored at the end, parsed
from the reversed string; both `[a-z_]+` groups are forced maximal because
each is preceded by the literal `'/'`, which is not in the class.  Python's
`'$'` also matches just before a final newline. -/

/-- Match `/en/[a-z_]+/[a-z_]+/` as a suffix, given the reversed string. -/
def endsTranslRev (r : List Char) : Bool :=
  match r with
  | '/' :: r1 =>
    let g2 := r1.takeWhile isLowerUnd
    let r2 := r1.dropWhile isLowerUnd
    if g2.isEmpty then false else
    match r2 with
    | '/' :: r3 =>
      let g1 := r3.takeWhile isLowerUnd
      let r4 := r3.dropWhile isLowerUnd
      if g1.isEmpty then false else ("/ne/".data).isPrefixOf r4
    | _ => false
  | _ => false

/-- `re.search(TRANSLATIONS_EN_CATEGORY_URL_REGEX, url)` as a Bool. -/
def reSearchTranslationsEnCategoryUrl (url : List Char) : Bool :=
  endsTranslRev url.reverse ||
  (match url.reverse with
   | '\n' :: r => endsTranslRev r
   | _ => false)

/-! ## Paginator: `collect_translations_paginated_content` (lines 146-172)

One scripted `PageEvent` is consumed per POST the code issues: a status
with an optional `more_html` field, or a timeout/connection error. -/

inductive PageEvent where
  | page (status : Nat) (moreHtml : Option (List Char))
  | pnetErr
deriving DecidableEq

/-- `_get_page`: on non-200 or a network error, retry the same offset; on
200 with a non-empty `more_html`, append it and request `offset + 200`; on
200 with `more_html` absent or empty, stop.  `none` means the script ran
out while a request was still pending (the real code would still be
retrying). -/
def collectGo : List PageEvent → Nat → List (List Char) → Option (List (List Char))
  | [], _, _ => none
  | .page s mh :: rest, off, acc =>
    if s = 200 then
      match mh with
      | some f => if f = [] then some acc else collectGo rest (off + 200) (acc ++ [f])
      | none => some acc
    else collectGo rest off acc
  | .pnetErr :: rest, off, acc => collectGo rest off acc

/-- `collect_translations_paginated_content`: run `_get_page(0)` then join
the accumulated fragments with newlines. -/
def collect_translations_paginated_content (script : List PageEvent) : Option (List Char) :=
  (collectGo script 0 []).map (List.intercalate ("\n".data))

/-- The offset carried by each consumed request, in order. -/
def collectOffsets : List PageEvent → Nat → List Nat
  | [], _ => []
  | .page s mh :: rest, off =>
    off :: (if s = 200 then
      match mh with
      | some f => if f = [] then [] else collectOffsets rest (off + 200)
      | none => []
    else collectOffsets rest off)
  | .pnetErr :: rest, off => off :: collectOffsets rest off

/-- A script realizes a fragment list: the successful 200 responses carry
exactly these non-empty fragments in order, then a 200 response with a
missing or empty `more_html` terminates; any number of transient failures
(non-200 statuses, timeouts, connection errors) are interleaved. -/
inductive Realizes : List PageEvent → List (List Char) → Prop where
  | stopMissing (rest : List PageEvent) : Realizes (.page 200 none :: rest) []
  | stopEmpty (rest : List PageEvent) : Realizes (.page 200 (some []) :: rest) []
  | frag {f : List Char} {rest : List PageEvent} {fs : List (List Char)} :
      f ≠ [] → Realizes rest fs → Realizes (.page 200 (some f) :: rest) (f :: fs)
  | fail {s : Nat} {mh : Option (List Char)} {rest : List PageEvent} {fs : List (List Char)} :
      s ≠ 200 → Realizes rest fs → Realizes (.page s mh :: rest) fs
  | nerr {rest : List PageEvent} {fs : List (List Char)} :
      Realizes rest fs → Realizes (.pnetErr :: rest) fs

/-! ## Fetcher: `crawl` (lines 175-215)

One scripted `FetchEvent` is consumed per GET: a status with a body, or a
timeout/connection error (both `TimeoutError` and `ClientConnectorError`
restart the whole crawl, lines 213-215). -/

inductive FetchEvent where
  | resp (status : Nat) (body : List Char)
  | netErr
deriving DecidableEq

/-- Terminal state of one `crawl` pipeline. -/
inductive Terminal where
  | wrote (filename content : List Char)
  | skipLogged (status : Nat) (body : List Char)
  | skip302
  | crash
deriving DecidableEq

/-- `crawl`: 5xx retries the whole fetch (line 181); a status outside
200/304 returns without writing, logging the body unless it is 302
(lines 183-187); otherwise the path is derived (an empty retained-segment
list raises `IndexError`, modelled as `.crash`), the content is the body —
or the paginated collection for a translations category url — and the
sanitized content is written once.  The result carries the number of
consumed fetch attempts; `none` means the script ran out mid-retry. -/
def crawl (root url : List Char) (pag : List PageEvent) : List FetchEvent → Option (Nat × Terminal)
  | [] => none
  | .netErr :: rest => (crawl root url pag rest).map (fun r => (r.1 + 1, r.2))
  | .resp s b :: rest =>
    if s / 100 = 5 then (crawl root url pag rest).map (fun r => (r.1 + 1, r.2))
    else if s ≠ 200 ∧ s ≠ 304 then
      if s ≠ 302 then some (1, .skipLogged s b) else some (1, .skip302)
    else
      match derivePath root url with
      | none => some (1, .crash)
      | some filename =>
        if reSearchTranslationsEnCategoryUrl url then
          (collect_translations_paginated_content pag).map
            (fun c => (1, .wrote filename (sanitize c)))
        else some (1, .wrote filename (sanitize b))

/-- The file writes performed by a finished crawl (path, content). -/
def writesOf : Option (Nat × Terminal) → List (List Char × List Char)
  | some (_, .wrote f c) => [(f, c)]
  | _ => []

/-- The skip log lines emitted by a finished crawl (status, logged body). -/
def skipLogsOf : Option (Nat × Terminal) → List (Nat × List Char)
  | some (_, .skipLogged s b) => [(s, b)]
  | _ => []

/-! ## Helper lemmas -/

/-- A pattern with no occurrence in `s` leaves `s` unchanged under the
substitution scan, for any fuel. -/
theorem subF_of_no_match (tryM : List Char → Option (Nat × List Char)) :
    ∀ (fuel : Nat) (s : List Char), hasMatchF tryM s = false → subF tryM fuel s = s := by
  intro fuel
  induction fuel with
  | zero => intro s _; rfl
  | succ n ih =>
    intro s h
    cases s with
    | nil => rfl
    | cons c cs =>
      cases htm : tryM (c :: cs) with
      | some v => simp [hasMatchF, htm] at h
      | none =>
        have h2 : hasMatchF tryM cs = false := by simpa [hasMatchF, htm] using h
        simp [subF, htm, ih cs h2]

/-- `re.sub` with a pattern that does not occur is the identity. -/
theorem reSub_of_no_match (tryM : List Char → Option (Nat × List Char)) (s : List Char)
    (h : hasMatchF tryM s = false) : reSub tryM s = s :=
  subF_of_no_match tryM s.length s h

/-- Text with no occurrence of any of the seven volatile patterns is left
unchanged by the whole sanitizer. -/
theorem sanitize_of_noMatchAll {x : List Char} (h : noMatchAll x = true) : sanitize x = x := by
  simp only [noMatchAll, Bool.and_eq_true, Bool.not_eq_true'] at h
  obtain ⟨⟨⟨⟨⟨⟨⟨h1, h2⟩, h3⟩, h4⟩, h5⟩, h6⟩, h7⟩, h8⟩ := h
  unfold sanitize
  rw [reSub_of_no_match _ _ h1, reSub_of_no_match _ _ h2, reSub_of_no_match _ _ h3,
    reSub_of_no_match _ _ h4, reSub_of_no_match _ _ h5, reSub_of_no_match _ _ h6,
    reSub_of_no_match _ _ h7, reSub_of_no_match _ _ h8]

/-- A prefix only uses characters of the longer list. -/
theorem isPrefixOf_subset : ∀ (p t : List Char), p.isPrefixOf t = true → ∀ c ∈ p, c ∈ t := by
  intro p
  induction p with
  | nil => intro t _ c hc; cases hc
  | cons x xs ih =>
    intro t h c hc
    cases t with
    | nil => simp [List.isPrefixOf] at h
    | cons y ys =>
      simp only [List.isPrefixOf, Bool.and_eq_true, beq_iff_eq] at h
      rcases List.mem_cons.mp hc with rfl | hc'
      · exact h.1 ▸ List.mem_cons_self _ _
      · exact List.mem_cons_of_mem _ (ih ys h.2 c hc')

/-- A substring only uses characters of the containing string. -/
theorem isSubstrOf_subset : ∀ (s p : List Char), isSubstrOf p s = true → ∀ c ∈ p, c ∈ s := by
  intro s
  induction s with
  | nil =>
    intro p h c hc
    cases p with
    | nil => cases hc
    | cons x xs => simp [isSubstrOf, List.isPrefixOf] at h
  | cons a t ih =>
    intro p h c hc
    rw [isSubstrOf, Bool.or_eq_true] at h
    rcases h with h | h
    · exact isPrefixOf_subset p (a :: t) h c hc
    · exact List.mem_cons_of_mem _ (ih p h c hc)

/-- The empty string is a substring of every string. -/
theorem isSubstrOf_nil (s : List Char) : isSubstrOf [] s = true := by
  cases s <;> simp [isSubstrOf, List.isPrefixOf]

/-- `str.split('/')` never returns the empty list. -/
theorem splitSlash_ne_nil (s : List Char) : splitSlash s ≠ [] := by
  cases s with
  | nil => simp [splitSlash]
  | cons c cs =>
    by_cases hc : c = '/'
    · simp [splitSlash, hc]
    · simp only [splitSlash, if_neg hc]
      cases h : splitSlash cs <;> simp

/-- Splitting distributes over a separator occurrence:
`(a + '/' + b).split('/') = a.split('/') + b.split('/')`. -/
theorem splitSlash_append_cons (a b : List Char) :
    splitSlash (a ++ '/' :: b) = splitSlash a ++ splitSlash b := by
  induction a with
  | nil => simp [splitSlash]
  | cons c cs ih =>
    by_cases hc : c = '/'
    · subst hc
      simp [splitSlash, ih]
    · simp only [List.cons_append, splitSlash, if_neg hc, List.append_eq]
      rw [ih]
      cases h : splitSlash cs with
      | nil => exact absurd h (splitSlash_ne_nil cs)
      | cons h' t' => rfl

/-- The empty segment is always filtered out. -/
theorem retainedNilPred : (!(isSubstrOf ([] : List Char) ILLEGAL_PATH_CHARS)) = false := by
  simp [isSubstrOf_nil]

/-- Retained segments distribute over a slash. -/
theorem retainedParts_append (x y : List Char) :
    retainedParts (x ++ '/' :: y) = retainedParts x ++ retainedParts y := by
  unfold retainedParts
  rw [splitSlash_append_cons, List.filter_append]

/-- `retainedParts` of the empty string is empty. -/
theorem retainedParts_empty : retainedParts ([] : List Char) = [] := by decide

/-- A url with an explicit retained-segment decomposition derives its path
by joining the segments and appending the conditional extension. -/
theorem derivePath_eq (root url : List Char) (p : List Char) (ps : List (List Char))
    (h : retainedParts url = p :: ps) :
    derivePath root url = some (root ++ joinedWithExt p ps) := by
  unfold derivePath
  rw [h]

/-- Paths agree whenever the retained segments agree. -/
theorem derivePath_congr (root u v : List Char) (h : retainedParts u = retainedParts v) :
    derivePath root u = derivePath root v := by
  unfold derivePath
  rw [h]

/-- Main pagination invariant: a realizing script delivers exactly the
realized fragments, appended in order to whatever was already
accumulated. -/
theorem collectGo_realizes {script : List PageEvent} {fs : List (List Char)}
    (h : Realizes script fs) :
    ∀ (off : Nat) (acc : List (List Char)), collectGo script off acc = some (acc ++ fs) := by
  induction h with
  | stopMissing rest => intro off acc; simp [collectGo]
  | stopEmpty rest => intro off acc; simp [collectGo]
  | frag hf _ ih =>
    intro off acc
    simp only [collectGo, if_pos rfl, if_neg hf]
    rw [ih]
    simp
  | fail hs _ ih =>
    intro off acc
    simp only [collectGo, if_neg hs]
    exact ih off acc
  | nerr _ ih =>
    intro off acc
    simp only [collectGo]
    exact ih off acc

/-- A nonempty script always records its first request at the current
offset. -/
theorem collectOffsets_head (e : PageEvent) (rest : List PageEvent) (off : Nat) :
    ∃ t, collectOffsets (e :: rest) off = off :: t := by
  cases e <;> exact ⟨_, rfl⟩

/-- A realizing script is nonempty. -/
theorem Realizes.script_ne_nil {script : List PageEvent} {fs : List (List Char)}
    (h : Realizes script fs) : script ≠ [] := by
  cases h <;> simp

/-- Offsets recorded by a realizing script never go below the starting
offset. -/
theorem collectOffsets_lb {script : List PageEvent} {fs : List (List Char)}
    (h : Realizes script fs) :
    ∀ (off o : Nat), o ∈ collectOffsets script off → off ≤ o := by
  induction h with
  | stopMissing rest =>
    intro off o ho
    simp [collectOffsets] at ho
    omega
  | stopEmpty rest =>
    intro off o ho
    simp [collectOffsets] at ho
    omega
  | frag hf _ ih =>
    intro off o ho
    simp only [collectOffsets, if_pos rfl, if_neg hf, List.mem_cons] at ho
    rcases ho with rfl | ho
    · exact Nat.le_refl _
    · have := ih (off + 200) o ho
      omega
  | fail hs _ ih =>
    intro off o ho
    simp only [collectOffsets, if_neg hs, List.mem_cons] at ho
    rcases ho with rfl | ho
    · exact Nat.le_refl _
    · exact ih off o ho
  | nerr _ ih =>
    intro off o ho
    simp only [collectOffsets, List.mem_cons] at ho
    rcases ho with rfl | ho
    · exact Nat.le_refl _
    · exact ih off o ho

/-- A realizing script starts by requesting the current offset. -/
theorem collectOffsets_self_mem {script : List PageEvent} {fs : List (List Char)}
    (h : Realizes script fs) (off : Nat) : off ∈ collectOffsets script off := by
  cases h with
  | stopMissing rest => simp [collectOffsets]
  | stopEmpty rest => simp [collectOffsets]
  | frag hf hr => simp [collectOffsets]
  | fail hs hr => simp [collectOffsets]
  | nerr hr => simp [collectOffsets]

/-- Deduplicated request offsets of a realizing script: each fragment index
i was requested at `off + 200 * i`, plus the final terminating request --
retries repeat an offset and disappear under `dedup`. -/
theorem collectOffsets_dedup {script : List PageEvent} {fs : List (List Char)}
    (h : Realizes script fs) :
    ∀ (off : Nat), (collectOffsets script off).dedup =
      (List.range (fs.length + 1)).map (fun i => off + 200 * i) := by
  induction h with
  | stopMissing rest =>
    intro off
    have hd : ([off] : List Nat).dedup = [off] := by
      rw [List.dedup_cons_of_not_mem (List.not_mem_nil _), List.dedup_nil]
    have hr1 : List.range 1 = [0] := by decide
    simp [collectOffsets, hd, hr1]
  | stopEmpty rest =>
    intro off
    have hd : ([off] : List Nat).dedup = [off] := by
      rw [List.dedup_cons_of_not_mem (List.not_mem_nil _), List.dedup_nil]
    have hr1 : List.range 1 = [0] := by decide
    simp [collectOffsets, hd, hr1]
  | frag hf hr ih =>
    rename_i f rest fs2
    intro off
    have hnm : off ∉ collectOffsets rest (off + 200) := by
      intro hmem
      have := collectOffsets_lb hr (off + 200) off hmem
      omega
    have hcol : collectOffsets (PageEvent.page 200 (some f) :: rest) off =
        off :: collectOffsets rest (off + 200) := by
      simp [collectOffsets, hf]
    have hrhs : List.map (fun i => off + 200 * i) (List.range ((f :: fs2).length + 1)) =
        off :: List.map (fun i => off + 200 + 200 * i) (List.range (fs2.length + 1)) := by
      rw [List.length_cons, List.range_succ_eq_map]
      simp only [List.map_cons, List.map_map, Nat.mul_zero, Nat.add_zero]
      refine congrArg (fun t => off :: t) ?_
      refine List.map_congr_left ?_
      intro i _
      simp only [Function.comp_apply]
      omega
    rw [hcol, List.dedup_cons_of_not_mem hnm, ih, hrhs]
  | fail hs hr ih =>
    intro off
    have hmem := collectOffsets_self_mem hr off
    simp only [collectOffsets, if_neg hs]
    rw [List.dedup_cons_of_mem hmem]
    exact ih off
  | nerr hr ih =>
    intro off
    have hmem := collectOffsets_self_mem hr off
    simp only [collectOffsets]
    rw [List.dedup_cons_of_mem hmem]
    exact ih off

/-! ## Claim theorems -/

/-- C2: for every output root, `derive_path` maps `example.com` to
`<root>example.com.html`, `example.com/a/b` to `<root>example.com/a/b.html`
and `example.com/a/b.json` to `<root>example.com/a/b.json`; and the
`.html` extension is appended exactly when the last retained segment
contains no `'.'` or there is a single retained segment. -/
theorem c2_path_derivation (root url : List Char) (p : List Char) (ps : List (List Char))
    (h : retainedParts url = p :: ps) :
    (derivePath root ("example.com".data) = some (root ++ ("example.com.html".data)) ∧
      derivePath root ("example.com/a/b".data) = some (root ++ ("example.com/a/b.html".data)) ∧
      derivePath root ("example.com/a/b.json".data) =
        some (root ++ ("example.com/a/b.json".data))) ∧
    (derivePath root url =
        some (root ++ (List.intercalate ("/".data) (p :: ps) ++ (".html".data))) ↔
      ('.' ∉ ps.getLastD p ∨ ps = [])) := by
  constructor
  · refine ⟨?_, ?_, ?_⟩
    · rw [derivePath_eq root _ ("example.com".data) [] (by decide)]
      have hj : joinedWithExt ("example.com".data) [] = ("example.com.html".data) := by decide
      rw [hj]
    · rw [derivePath_eq root _ ("example.com".data) [("a".data), ("b".data)] (by decide)]
      have hj : joinedWithExt ("example.com".data) [("a".data), ("b".data)] =
          ("example.com/a/b.html".data) := by decide
      rw [hj]
    · rw [derivePath_eq root _ ("example.com".data) [("a".data), ("b.json".data)] (by decide)]
      have hj : joinedWithExt ("example.com".data) [("a".data), ("b.json".data)] =
          ("example.com/a/b.json".data) := by decide
      rw [hj]
  · rw [derivePath_eq root url p ps h]
    unfold joinedWithExt
    by_cases hc : ('.' ∉ ps.getLastD p ∨ ps = [])
    · rw [if_pos hc]
      exact iff_of_true rfl hc
    · rw [if_neg hc]
      refine iff_of_false ?_ hc
      intro heq
      have h1 := Option.some.inj heq
      have h2 := List.append_cancel_left h1
      have h3 := congrArg List.length h2
      simp [List.length_append] at h3

/-- Witness for C2 at the url `example.com/a/b.json`. -/
theorem c2_path_derivation_witness :
    retainedParts ("example.com/a/b.json".data) =
      ("example.com".data) :: [("a".data), ("b.json".data)] ∧
    (derivePath ("data/".data) ("example.com/a/b.json".data) =
        some (("data/".data) ++ (List.intercalate ("/".data)
          (("example.com".data) :: [("a".data), ("b.json".data)]) ++ (".html".data))) ↔
      ('.' ∉ [("a".data), ("b.json".data)].getLastD ("example.com".data) ∨
        ([("a".data), ("b.json".data)] : List (List Char)) = [])) :=
  ⟨by decide,
    (c2_path_derivation ("data/".data) ("example.com/a/b.json".data) ("example.com".data)
      [("a".data), ("b.json".data)] (by decide)).2⟩

/-- C8 (amended): a `'/'`-separated segment is dropped exactly when it is a
contiguous substring of the `ILLEGAL_PATH_CHARS` constant; every dropped
segment therefore consists only of path-illegal characters, but not every
all-illegal segment is dropped (see the counterexample). -/
theorem c8_segment_dropping (url : List Char) (p : List Char)
    (hmem : p ∈ splitSlash url) :
    (p ∈ retainedParts url ↔ isSubstrOf p ILLEGAL_PATH_CHARS = false) ∧
    (isSubstrOf p ILLEGAL_PATH_CHARS = true → ∀ c ∈ p, c ∈ ILLEGAL_PATH_CHARS) := by
  constructor
  · unfold retainedParts
    rw [List.mem_filter]
    simp [hmem]
  · intro h c hc
    exact isSubstrOf_subset _ _ h c hc

/-- C8 counterexample: the segment `'!!'` consists entirely of path-illegal
characters yet is retained in the derivation for `'a/!!/b'`, because it is
not a contiguous substring of the `ILLEGAL_PATH_CHARS` constant. -/
theorem c8_counterexample :
    (∀ c ∈ ("!!".data), c ∈ ILLEGAL_PATH_CHARS) ∧
    ("!!".data) ∈ retainedParts ("a/!!/b".data) ∧
    retainedParts ("a/!!/b".data) = [("a".data), ("!!".data), ("b".data)] := by
  decide

/-- Witness for C8 at the url `a/!!/b` and segment `!!`. -/
theorem c8_segment_dropping_witness :
    (("!!".data) ∈ splitSlash ("a/!!/b".data)) ∧
    (("!!".data) ∈ retainedParts ("a/!!/b".data) ↔
      isSubstrOf ("!!".data) ILLEGAL_PATH_CHARS = false) :=
  ⟨by decide, (c8_segment_dropping ("a/!!/b".data) ("!!".data) (by decide)).1⟩

/-- C9: empty segments arising from leading, trailing or doubled slashes
are always dropped (the empty string is a substring of the illegal-character
constant), so e.g. `example.com/a/` derives the same path as
`example.com/a`. -/
theorem c9_empty_segments (root url a b : List Char) :
    ([] : List Char) ∉ retainedParts url ∧
    retainedParts (url ++ ("/".data)) = retainedParts url ∧
    retainedParts (("/".data) ++ url) = retainedParts url ∧
    retainedParts ((a ++ ("//".data)) ++ b) = retainedParts ((a ++ ("/".data)) ++ b) ∧
    derivePath root ("example.com/a/".data) = derivePath root ("example.com/a".data) := by
  have hnilmem : ∀ (u : List Char), ([] : List Char) ∉ retainedParts u := by
    intro u hmem
    unfold retainedParts at hmem
    rw [List.mem_filter] at hmem
    rw [isSubstrOf_nil] at hmem
    exact absurd hmem.2 (by decide)
  have htrail : ∀ (u : List Char), retainedParts (u ++ ("/".data)) = retainedParts u := by
    intro u
    have hu : u ++ ("/".data) = u ++ '/' :: ([] : List Char) := rfl
    rw [hu, retainedParts_append, retainedParts_empty, List.append_nil]
  have hlead : ∀ (u : List Char), retainedParts (("/".data) ++ u) = retainedParts u := by
    intro u
    have hu : ("/".data) ++ u = ([] : List Char) ++ '/' :: u := rfl
    rw [hu, retainedParts_append, retainedParts_empty, List.nil_append]
  refine ⟨hnilmem url, htrail url, hlead url, ?_, ?_⟩
  · have h1 : (a ++ ("//".data)) ++ b = a ++ '/' :: (("/".data) ++ b) := by
      rw [List.append_assoc]; rfl
    have h2 : (a ++ ("/".data)) ++ b = a ++ '/' :: b := by
      rw [List.append_assoc]; rfl
    rw [h1, h2, retainedParts_append, retainedParts_append, hlead b]
  · apply derivePath_congr
    have hu : ("example.com/a/".data) = ("example.com/a".data) ++ ("/".data) := by decide
    rw [hu, htrail]

/-- C10: path derivation is partial: a url all of whose segments are
dropped (the empty string, a bare `'/'`) has an empty retained-segment
list, so `url_parts[-1]` raises and the 200/304 branch of `crawl` cannot
complete; with at least one retained segment it is total. -/
theorem c10_path_partiality (root b url : List Char) (pag : List PageEvent)
    (h : retainedParts url ≠ []) :
    retainedParts ([] : List Char) = [] ∧
    retainedParts ("/".data) = [] ∧
    derivePath root [] = none ∧
    crawl root [] pag [FetchEvent.resp 200 b] = some (1, Terminal.crash) ∧
    (derivePath root url).isSome = true := by
  have hempty : derivePath root [] = none := by
    unfold derivePath
    rw [retainedParts_empty]
  refine ⟨by decide, by decide, hempty, ?_, ?_⟩
  · simp only [crawl]
    rw [if_neg (by decide), if_neg (by simp), hempty]
  · cases hr : retainedParts url with
    | nil => exact absurd hr h
    | cons p ps =>
      rw [derivePath_eq root url p ps hr]
      rfl

/-- Witness for C10 at the url `a`. -/
theorem c10_path_partiality_witness :
    retainedParts ("a".data) ≠ [] ∧
    (derivePath ("data/".data) ("a".data)).isSome = true :=
  ⟨by decide,
    (c10_path_partiality ("data/".data) ("x".data) ("a".data) [] (by decide)).2.2.2.2⟩

/-- C3: every script of responses that delivers non-empty fragments
f1..fN at the successive 200s and then terminates, with arbitrarily many
transient failures interleaved (each retried at the unchanged offset),
makes `collect` return exactly those fragments joined by newlines in
offset order; the deduplicated request offsets are exactly 0, 200, ...,
200·N. -/
theorem c3_pagination_completeness {script : List PageEvent} {fs : List (List Char)}
    (h : Realizes script fs) :
    collect_translations_paginated_content script =
      some (List.intercalate ("\n".data) fs) ∧
    (collectOffsets script 0).dedup =
      (List.range (fs.length + 1)).map (fun i => 200 * i) := by
  constructor
  · unfold collect_translations_paginated_content
    rw [collectGo_realizes h 0 []]
    rfl
  · have hd := collectOffsets_dedup h 0
    simpa using hd

/-- Witness for C3: fragments A and B with a 500 and a network error
injected. -/
theorem c3_pagination_completeness_witness :
    Realizes
      [PageEvent.page 500 none, PageEvent.page 200 (some ("A".data)),
        PageEvent.pnetErr, PageEvent.page 200 (some ("B".data)), PageEvent.page 200 none]
      [("A".data), ("B".data)] ∧
    collect_translations_paginated_content
        [PageEvent.page 500 none, PageEvent.page 200 (some ("A".data)),
          PageEvent.pnetErr, PageEvent.page 200 (some ("B".data)), PageEvent.page 200 none] =
      some ("A\nB".data) ∧
    (collectOffsets
        [PageEvent.page 500 none, PageEvent.page 200 (some ("A".data)),
          PageEvent.pnetErr, PageEvent.page 200 (some ("B".data)), PageEvent.page 200 none]
        0).dedup = [0, 200, 400] := by
  have hr : Realizes
      [PageEvent.page 500 none, PageEvent.page 200 (some ("A".data)),
        PageEvent.pnetErr, PageEvent.page 200 (some ("B".data)), PageEvent.page 200 none]
      [("A".data), ("B".data)] :=
    Realizes.fail (by decide)
      (Realizes.frag (by decide)
        (Realizes.nerr (Realizes.frag (by decide) (Realizes.stopMissing _))))
  have hc := c3_pagination_completeness hr
  exact ⟨hr, hc.1.trans (by decide), hc.2.trans (by decide)⟩

/-- C1: any sequence of 5xx responses before a 200 is retried immediately
with no attempt cap — each 5xx consumes one extra attempt, the pipeline then
terminates with the (sanitized) 200 body as the written content, and exactly
one file write is performed. -/
theorem c1_retry_on_5xx (root url p : List Char) (pag : List PageEvent)
    (errs : List (Nat × List Char)) (b : List Char)
    (h5 : ∀ e ∈ errs, e.1 / 100 = 5)
    (hpath : derivePath root url = some p)
    (htr : reSearchTranslationsEnCategoryUrl url = false) :
    crawl root url pag
        (errs.map (fun e => FetchEvent.resp e.1 e.2) ++ [FetchEvent.resp 200 b]) =
      some (errs.length + 1, Terminal.wrote p (sanitize b)) ∧
    writesOf (crawl root url pag
        (errs.map (fun e => FetchEvent.resp e.1 e.2) ++ [FetchEvent.resp 200 b])) =
      [(p, sanitize b)] := by
  have main : crawl root url pag
      (errs.map (fun e => FetchEvent.resp e.1 e.2) ++ [FetchEvent.resp 200 b]) =
      some (errs.length + 1, Terminal.wrote p (sanitize b)) := by
    induction errs with
    | nil =>
      simp only [List.map_nil, List.nil_append, crawl]
      rw [if_neg (by decide), if_neg (by simp), hpath]
      simp [htr]
    | cons e es ih =>
      have he : e.1 / 100 = 5 := h5 e (List.mem_cons_self _ _)
      have hes : ∀ x ∈ es, x.1 / 100 = 5 := fun x hx => h5 x (List.mem_cons_of_mem _ hx)
      simp only [List.map_cons, List.cons_append, crawl, List.append_eq]
      rw [if_pos he, ih hes]
      simp
  exact ⟨main, by rw [main]; rfl⟩

/-- Witness for C1: three 503 responses, then a 200 with body `ok`. -/
theorem c1_retry_on_5xx_witness :
    ((∀ e ∈ ([(503, ("E".data)), (503, ("E".data)), (503, ("E".data))] :
          List (Nat × List Char)), e.1 / 100 = 5) ∧
      derivePath ("data/".data) ("example.com".data) = some ("data/example.com.html".data) ∧
      reSearchTranslationsEnCategoryUrl ("example.com".data) = false) ∧
    crawl ("data/".data) ("example.com".data) []
        (([(503, ("E".data)), (503, ("E".data)), (503, ("E".data))] :
            List (Nat × List Char)).map (fun e => FetchEvent.resp e.1 e.2) ++
          [FetchEvent.resp 200 ("ok".data)]) =
      some (4, Terminal.wrote ("data/example.com.html".data) (sanitize ("ok".data))) :=
  ⟨⟨by decide, by decide, by decide⟩,
    (c1_retry_on_5xx ("data/".data) ("example.com".data) ("data/example.com.html".data) []
      [(503, ("E".data)), (503, ("E".data)), (503, ("E".data))] ("ok".data)
      (by decide) (by decide) (by decide)).1⟩

/-- C6 (amended): a non-5xx status outside the set 200/302/304 terminates
after the single attempt — the tail of the script is never consumed — with
no file write and one skip log that carries the response body. -/
theorem c6_skip_non_retryable (root url : List Char) (pag : List PageEvent)
    (s : Nat) (b : List Char) (rest : List FetchEvent)
    (h5 : s / 100 ≠ 5) (h200 : s ≠ 200) (h304 : s ≠ 304) (h302 : s ≠ 302) :
    crawl root url pag (FetchEvent.resp s b :: rest) = some (1, Terminal.skipLogged s b) ∧
    writesOf (crawl root url pag (FetchEvent.resp s b :: rest)) = [] ∧
    skipLogsOf (crawl root url pag (FetchEvent.resp s b :: rest)) = [(s, b)] := by
  have main : crawl root url pag (FetchEvent.resp s b :: rest) =
      some (1, Terminal.skipLogged s b) := by
    simp only [crawl]
    rw [if_neg h5, if_pos ⟨h200, h304⟩, if_pos h302]
  exact ⟨main, by rw [main]; rfl, by rw [main]; rfl⟩

/-- C6 counterexample: 503 lies outside the set 200/302/304, yet the code
retries it (a second attempt is consumed) and the pipeline ends in a file
write, contradicting the claim as stated for every status outside the
set. -/
theorem c6_counterexample :
    ((503 : Nat) ∉ ([200, 302, 304] : List Nat)) ∧
    crawl ("data/".data) ("example.com".data) []
        [FetchEvent.resp 503 ("E".data), FetchEvent.resp 200 ("ok".data)] =
      some (2, Terminal.wrote ("data/example.com.html".data) ("ok".data)) ∧
    writesOf (crawl ("data/".data) ("example.com".data) []
        [FetchEvent.resp 503 ("E".data), FetchEvent.resp 200 ("ok".data)]) ≠ [] := by
  decide

/-- Witness for C6 at status 404. -/
theorem c6_skip_non_retryable_witness :
    ((404 : Nat) / 100 ≠ 5 ∧ (404 : Nat) ≠ 200 ∧ (404 : Nat) ≠ 304 ∧ (404 : Nat) ≠ 302) ∧
    crawl ("data/".data) ("u".data) [] [FetchEvent.resp 404 ("nf".data)] =
      some (1, Terminal.skipLogged 404 ("nf".data)) :=
  ⟨by decide, (c6_skip_non_retryable ("data/".data) ("u".data) [] 404 ("nf".data) []
    (by decide) (by decide) (by decide) (by decide)).1⟩

/-- C7: a 302 response terminates the pipeline after one attempt with no
retry, no file write and no skip log — it is silently discarded. -/
theorem c7_302_silently_discarded (root url : List Char) (pag : List PageEvent)
    (b : List Char) (rest : List FetchEvent) :
    crawl root url pag (FetchEvent.resp 302 b :: rest) = some (1, Terminal.skip302) ∧
    writesOf (crawl root url pag (FetchEvent.resp 302 b :: rest)) = [] ∧
    skipLogsOf (crawl root url pag (FetchEvent.resp 302 b :: rest)) = [] := by
  have main : crawl root url pag (FetchEvent.resp 302 b :: rest) =
      some (1, Terminal.skip302) := by
    simp only [crawl]
    rw [if_neg (by decide), if_pos (by decide), if_neg (by simp)]
  exact ⟨main, by rw [main]; rfl, by rw [main]; rfl⟩

/-- C4 counterexample: sanitizing `?hash=a` yields the marker, but a second
pass re-matches the marker's leading `telegram` run and appends another
`-crawler`, so the sanitizer is not idempotent. -/
theorem c4_counterexample :
    sanitize ("?hash=a".data) = ("?hash=telegram-crawler".data) ∧
    sanitize (sanitize ("?hash=a".data)) = ("?hash=telegram-crawler-crawler".data) ∧
    sanitize (sanitize ("?hash=a".data)) ≠ sanitize ("?hash=a".data) := by
  decide

/-- C4 (amended): on text free of every volatile pattern the sanitizer is
the identity and hence idempotent; unrestricted idempotence fails (see the
counterexample). -/
theorem c4_sanitize_idempotent_on_clean (x : List Char) (h : noMatchAll x = true) :
    sanitize x = x ∧ sanitize (sanitize x) = sanitize x := by
  have hx : sanitize x = x := sanitize_of_noMatchAll h
  refine ⟨hx, ?_⟩
  rw [hx]
  exact hx

/-- Witness for C4 at the pattern-free text `hello`. -/
theorem c4_sanitize_idempotent_on_clean_witness :
    noMatchAll ("hello".data) = true ∧
    (sanitize ("hello".data) = ("hello".data) ∧
      sanitize (sanitize ("hello".data)) = sanitize ("hello".data)) :=
  ⟨by decide, c4_sanitize_idempotent_on_clean ("hello".data) (by decide)⟩

/-- C5 counterexample: the translation-suggestion deletion (rule 6) runs
after the hash rule, splicing `?hash=` against `b` and leaving a full
volatile-hash match in the output while no marker occurs in it at all. -/
theorem c5_counterexample :
    sanitize ("?hash=<div class=\"tr-value-suggestion\">a</div>b".data) = ("?hash=b".data) ∧
    hasMatchF tryPageApiHash ("?hash=b".data) = true ∧
    isSubstrOf ("?hash=telegram-crawler".data) ("?hash=b".data) = false := by
  decide

/-- C5 (amended): on input free of every volatile pattern the sanitizer is
the identity and its output again contains no occurrence of any of the
seven volatile patterns; the unrestricted marker invariant fails (see the
counterexample). -/
theorem c5_marker_invariant_on_clean (x : List Char) (h : noMatchAll x = true) :
    sanitize x = x ∧ noMatchAll (sanitize x) = true := by
  have hx : sanitize x = x := sanitize_of_noMatchAll h
  refine ⟨hx, ?_⟩
  rw [hx]
  exact h

/-- Witness for C5 at the pattern-free text `world`. -/
theorem c5_marker_invariant_on_clean_witness :
    noMatchAll ("world".data) = true ∧
    (sanitize ("world".data) = ("world".data) ∧
      noMatchAll (sanitize ("world".data)) = true) :=
  ⟨by decide, c5_marker_invariant_on_clean ("world".data) (by decide)⟩
